import Mathlib

/-!
# Verification of the watchboi proxy / task-runner core

Shallow embedding of the watchboi source (`src/http.rs`, `src/task.rs`,
`src/op/command.rs`, `src/op/workdir.rs`, `src/op/copy.rs`) together with
proofs about the embedded definitions.

Byte buffers are modelled as `List Char`; every literal the code scans for
(`</body>`, `<!--`, `-->`, `text/html`, ...) is ASCII, so the char-level
scan coincides with the byte-level scan of the source.
-/

namespace Watchboi

/-- A byte buffer (`&[u8]` in the source), modelled at char level. -/
abbrev Buf := List Char

/-! ## `inject_into` (src/http.rs, lines 130-155)

```rust
fn inject_into(input: &[u8], ws_addr: SocketAddr) -> Vec<u8> {
    let mut body_close_idx = None;
    let mut inside_comment = false;
    for i in 0..input.len() {
        let rest = &input[i..];
        if !inside_comment && rest.starts_with(b"</body>") {
            body_close_idx = Some(i);
        } else if !inside_comment && rest.starts_with(b"<!--") {
            inside_comment = true;
        } else if inside_comment && rest.starts_with(b"-->") {
            inside_comment = false;
        }
    }
    ...
    let insert_idx = body_close_idx.unwrap_or(input.len());
    let mut out = input[..insert_idx].to_vec();
    out.extend_from_slice(script.as_bytes());
    out.extend_from_slice(&input[insert_idx..]);
    out
}
```

The script construction (`include_str!("inject.js")` with the port patched
in) is pure data; it is abstracted as a `script : Buf` parameter. -/

def bodyCloseLit : Buf := "</body>".toList

def commentOpenLit : Buf := "<!--".toList

def commentCloseLit : Buf := "-->".toList

/-- The loop state of `inject_into`: `body_close_idx` and `inside_comment`. -/
structure ScanState where
  bodyCloseIdx : Option Nat
  insideComment : Bool
deriving DecidableEq, Repr

/-- One iteration of the `for i in 0..input.len()` loop of `inject_into`. -/
def injectStep (input : Buf) (st : ScanState) (i : Nat) : ScanState :=
  let rest := input.drop i
  if !st.insideComment && bodyCloseLit.isPrefixOf rest then
    { st with bodyCloseIdx := some i }
  else if !st.insideComment && commentOpenLit.isPrefixOf rest then
    { st with insideComment := true }
  else if st.insideComment && commentCloseLit.isPrefixOf rest then
    { st with insideComment := false }
  else
    st

/-- The loop state after the first `n` iterations (indices `0..n`). -/
def scanTo (input : Buf) (n : Nat) : ScanState :=
  (List.range n).foldl (injectStep input) ⟨none, false⟩

/-- `inject_into`: insert `script` at the index remembered by the scan,
or append it at the very end when the scan found nothing. -/
def inject_into (input script : Buf) : Buf :=
  let insertIdx := (scanTo input input.length).bodyCloseIdx.getD input.length
  input.take insertIdx ++ script ++ input.drop insertIdx

/-- The `inside_comment` flag just before iteration `i` of the scan. -/
def inCommentAt (input : Buf) (i : Nat) : Bool :=
  (scanTo input i).insideComment

/-- An occurrence of `</body>` at index `i` that the scan does not treat as
guarded by an HTML comment: the in-comment flag is off when the scan
reaches `i`, and `</body>` literally occurs at `i`. -/
def UnguardedAt (input : Buf) (i : Nat) : Prop :=
  inCommentAt input i = false ∧ bodyCloseLit.isPrefixOf (input.drop i) = true

instance (input : Buf) (i : Nat) : Decidable (UnguardedAt input i) := by
  unfold UnguardedAt; infer_instance

/-- The invariant maintained by the scan over the first `n` indices:
the recorded index is the position of the most recent unguarded
`</body>` occurrence, and `none` when no index below `n` carries one. -/
def ScanInv (input : Buf) (n : Nat) : Prop :=
  match (scanTo input n).bodyCloseIdx with
  | none => ∀ j, j < n → ¬ UnguardedAt input j
  | some i => i < n ∧ UnguardedAt input i ∧ ∀ j, i < j → j < n → ¬ UnguardedAt input j

/-! ## `Outcome` and `Task::run` (src/task.rs, lines 31-54)

```rust
pub fn run(&self, ctx: &Context) -> Result<Outcome> {
    let ctx = ctx.fork_task(&self.name);
    for op in &self.operations {
        let outcome = op.run(&ctx).with_context(|| ...)?;
        if outcome.is_failure() {
            return Ok(Outcome::Failure)
        }
    }
    Ok(Outcome::Success)
}
```
-/

/-- Modelled from the spec: the binary `Outcome` type (`{Success, Failure}`,
no payload) is declared in `src/op/mod.rs`, which is not among the provided
sources; `task.rs` and the operations use `Outcome::Success`,
`Outcome::Failure` and `outcome.is_failure()`. -/
inductive Outcome
  | success
  | failure
deriving DecidableEq, Repr

def Outcome.is_failure : Outcome → Bool
  | .failure => true
  | .success => false

/-- `Task::run` over the sequence of results its operations would produce:
`.error e` models `op.run` returning `Err` (propagated by `?`), `.ok o` an
operation that completed with outcome `o`. The returned `Nat` counts how
many operations of the sequence were actually executed. -/
def taskRun : List (Except String Outcome) → Except String Outcome × Nat
  | [] => (Except.ok Outcome.success, 0)
  | Except.error e :: _ => (Except.error e, 1)
  | Except.ok o :: rest =>
    if o.is_failure then (Except.ok Outcome.failure, 1)
    else ((taskRun rest).1, (taskRun rest).2 + 1)

/-! ## `ProgramAndArgs` and the `Command` operation (src/op/command.rs) -/

/-- `ProgramAndArgs` (src/op/command.rs, lines 20-28). -/
structure ProgramAndArgs where
  program : String
  args : List String
deriving DecidableEq, Repr

/-- `RawProgramAndArgs` (lines 30-35): the two source encodings of a
command specification. -/
inductive RawProgramAndArgs
  | simple (s : String)
  | explicit (v : List String)

/-- Rust's `str::split_whitespace` at char level: the maximal runs of
non-whitespace characters, in order; leading, trailing and repeated
whitespace produce no empty fragments. `acc` holds the current fragment
reversed. -/
def splitWhitespaceAux : List Char → List Char → List String
  | [], acc => if acc.isEmpty then [] else [String.mk acc.reverse]
  | c :: rest, acc =>
    if c.isWhitespace then
      if acc.isEmpty then splitWhitespaceAux rest []
      else String.mk acc.reverse :: splitWhitespaceAux rest []
    else splitWhitespaceAux rest (c :: acc)

def splitWhitespace (s : String) : List String :=
  splitWhitespaceAux s.toList []

/-- `TryFrom<RawProgramAndArgs> for ProgramAndArgs` (lines 37-69). The
`[] => .error _` arm in the `simple` case mirrors the source's
`split.next().unwrap() // checked above`: it is unreachable because the
all-whitespace check already returned an error; likewise for `explicit`,
where `v[0]` is only read after the emptiness check. -/
def programAndArgsTryFrom : RawProgramAndArgs → Except String ProgramAndArgs
  | .simple s =>
    if s.isEmpty || s.toList.all Char.isWhitespace then
      .error "command string is empty"
    else
      match splitWhitespace s with
      | [] => .error "command string is empty"
      | program :: args => .ok ⟨program, args⟩
  | .explicit v =>
    if v.isEmpty then
      .error "empty list as command specification"
    else if v.any (fun f => f.isEmpty || f.toList.all Char.isWhitespace) then
      .error "empty fragment in command specification"
    else
      match v with
      | [] => .error "empty list as command specification"
      | program :: args => .ok ⟨program, args⟩

/-- The fragment printer inside `Display for ProgramAndArgs` (lines 73-79):
quote a fragment containing whitespace, print it bare otherwise. -/
def fragmentDisplay (s : String) : String :=
  if s.toList.any Char.isWhitespace then "\"" ++ s ++ "\"" else s

/-- `Display for ProgramAndArgs` (lines 71-90): the program, then each
argument, separated by single spaces. -/
def ProgramAndArgs.display (pa : ProgramAndArgs) : String :=
  pa.args.foldl (fun acc a => acc ++ " " ++ fragmentDisplay a) (fragmentDisplay pa.program)

/-- The slice of `std::io::ErrorKind` that `Command::start` inspects. -/
inductive IOErrorKind
  | notFound
  | other
deriving DecidableEq, Repr

/-- A spawn error: its OS error kind together with its own message. -/
structure SpawnError where
  kind : IOErrorKind
  msg : String
deriving DecidableEq, Repr

/-- An opaque handle to a spawned child process. -/
structure Child where
  pid : Nat
deriving DecidableEq, Repr

/-- `RunningCommand` (lines 154-157): wraps the live child process. -/
structure RunningCommand where
  child : Child
deriving DecidableEq, Repr

/-- The hint appended to the spawn-error context when the OS error kind is
`NotFound` (lines 142-147). -/
def notInstalledHint (run : ProgramAndArgs) : String :=
  " (you probably don't have the command '" ++ run.program ++ "' installed)"

/-- The `context` string built in the `Err` arm of `Command::start`
(lines 140-149). -/
def spawnContext (run : ProgramAndArgs) (e : SpawnError) : String :=
  let context := "failed to spawn `" ++ run.display ++ "`"
  if e.kind = IOErrorKind.notFound then context ++ notInstalledHint run
  else context

/-- `Command::start` (lines 124-151), parameterized by the result of
`command.spawn()` (the OS interaction): a successful spawn yields the
running handle, a failed spawn is propagated as a hard error annotated
with `spawnContext` — never converted into an `Outcome`. -/
def commandStart (run : ProgramAndArgs) (spawn : Except SpawnError Child) :
    Except (String × SpawnError) RunningCommand :=
  match spawn with
  | .ok child => .ok ⟨child⟩
  | .error e => .error (spawnContext run e, e)

/-- `RunningCommand::finish_with_status` (lines 159-168), with the exit
status given as its code (`status.success()` iff the code is 0): returns
the outcome paired with whether the non-zero-exit warning was logged. -/
def finishWithStatus (code : Nat) : Outcome × Bool :=
  if code = 0 then (Outcome.success, false) else (Outcome.failure, true)

/-! ## The proxy (src/http.rs, lines 79-128)

```rust
async fn proxy(mut req, target, ws_addr, auto_reload) -> Result<Response<Body>> {
    let uri = Uri::builder().scheme("http").authority(target.to_string())
        .path_and_query(req.uri().path_and_query().map(|pq| pq.as_str()).unwrap_or(""))
        .build()...;
    let response = match client.request(req).await {
        Ok(response) if !auto_reload => response,
        Ok(response) => {
            if content_type starts_with b"text/html" {
                // buffer body, inject, rewrite Content-Length if present
            } else { response }
        }
        Err(e) => Response::builder().status(502)
            .header("Content-Type", "text/plain")
            .body(format!("failed to reach {}\nError:\n\n{}", uri, e))...
    };
    Ok(response)
}
```
-/

/-- The parts of a hyper response the proxy inspects or touches; every
header other than Content-Type and Content-Length is collected untouched
in `otherHeaders`. The Content-Type value is kept as a byte buffer because
the source compares it bytewise (`as_ref().starts_with(b"text/html")`). -/
structure ResponseParts where
  status : Nat
  contentType : Option Buf
  contentLength : Option Nat
  otherHeaders : List (String × String)
deriving DecidableEq, Repr

structure HttpResponse where
  parts : ResponseParts
  body : Buf
deriving DecidableEq, Repr

/-- An inbound request, as far as `proxy` reads it: its optional
path-and-query. -/
structure HttpRequest where
  pathAndQuery : Option String
deriving DecidableEq, Repr

/-- The URI assembled by `Uri::builder()` in `proxy` (lines 85-90). -/
structure BuiltUri where
  scheme : String
  authority : String
  pathAndQuery : String
deriving DecidableEq, Repr

/-- Lines 85-91: scheme `http`, authority = the fixed target address, and
the request's path-and-query (`""` when the request has none). -/
def rebuildUri (target : String) (req : HttpRequest) : BuiltUri :=
  { scheme := "http", authority := target,
    pathAndQuery := req.pathAndQuery.getD "" }

def uriToString (u : BuiltUri) : String :=
  u.scheme ++ "://" ++ u.authority ++ u.pathAndQuery

/-- Line 98: the response carries a Content-Type header whose value begins
with `text/html`. -/
def isHtmlResponse (r : HttpResponse) : Bool :=
  match r.parts.contentType with
  | some ct => "text/html".toList.isPrefixOf ct
  | none => false

/-- Lines 99-110: buffer the body, inject the script, and rewrite the
Content-Length header to the new byte length — only when that header is
present (`headers_mut().get_mut(...)`). All other parts carry over. -/
def injectResponse (script : Buf) (r : HttpResponse) : HttpResponse :=
  let newBody := inject_into r.body script
  { parts := { r.parts with
               contentLength := r.parts.contentLength.map (fun _ => newBody.length) },
    body := newBody }

/-- Lines 115-124: the 502 BAD GATEWAY response for a failed upstream
call. -/
def badGatewayResponse (uri : BuiltUri) (e : String) : HttpResponse :=
  { parts := { status := 502,
               contentType := some "text/plain".toList,
               contentLength := none,
               otherHeaders := [] },
    body := ("failed to reach " ++ uriToString uri ++ "\nError:\n\n" ++ e).toList }

/-- `proxy` (lines 79-128), parameterized by the backend call
(`client.request`, modelled as a function from the rebuilt URI to either a
response or an error). The function is total: every request — including a
failed upstream call — produces a response, mirroring the source's
`Ok(response)` on every path. -/
def proxy (target : String) (autoReload : Bool) (script : Buf)
    (req : HttpRequest) (backend : BuiltUri → Except String HttpResponse) :
    HttpResponse :=
  let uri := rebuildUri target req
  match backend uri with
  | .ok response =>
    if !autoReload then response
    else if isHtmlResponse response then injectResponse script response
    else response
  | .error e => badGatewayResponse uri e

/-! ## Context and the `SetWorkDir` operation (src/op/workdir.rs)

```rust
async fn run(&self, ctx: &Context) -> Result<Outcome> {
    let new_workdir = ctx.join_workdir(&self.0);
    if !new_workdir.is_dir() {
        bail!("'{}' is not a valid path to a directory (or it is inaccessible)", ...);
    }
    let dir = WorkDir(new_workdir);
    ctx.top_frame.insert_var(dir);
    Ok(Outcome::Success)
}
```
-/

/-- A filesystem path, as its list of components. -/
abbrev Path := List String

/-- Modelled from the spec: a Context `Frame` — `context.rs` is not among
the provided sources. Per spec §3 a frame maps capability keys to typed
values, and the only capability in play here is the working directory. -/
structure Frame where
  workdir : Option Path
deriving DecidableEq, Repr

/-- Modelled from the spec: the `Context` — `context.rs` is not among the
provided sources. Per spec §3 it is a stack of frames consulted
innermost-first over a process-global base working directory; the top
frame is the one `SetWorkDir` writes into (`ctx.top_frame`). -/
structure Context where
  base : Path
  top : Frame
  rest : List Frame
deriving DecidableEq, Repr

/-- Modelled from the spec: the Context's current working directory — the
value of the innermost frame that carries one, the base directory when no
frame overrides it. -/
def Context.currentWorkdir (ctx : Context) : Path :=
  match ctx.top.workdir with
  | some p => p
  | none =>
    match ctx.rest.findSome? (fun f => f.workdir) with
    | some p => p
    | none => ctx.base

/-- Modelled from the spec: `ctx.join_workdir(path)` resolves a path
relative to the Context's current working directory. -/
def Context.joinWorkdir (ctx : Context) (p : Path) : Path :=
  ctx.currentWorkdir ++ p

def pathDisplay (p : Path) : String := String.intercalate "/" p

/-- The error message of `SetWorkDir::run` (src/op/workdir.rs, lines
34-37). -/
def setWorkDirMsg (p : Path) : String :=
  "'" ++ pathDisplay p ++ "' is not a valid path to a directory (or it is inaccessible)"

/-- `SetWorkDir::run` (src/op/workdir.rs, lines 31-46), parameterized by
the filesystem's directory test (`Path::is_dir`). Returns the operation
result together with the Context after the call; the source mutates `ctx`
in place, and its error path performs no mutation. -/
def setWorkDirRun (path : Path) ( isDir : Path → Bool) (ctx : Context) :
    Except String Outcome × Context :=
  let newWorkdir := ctx.joinWorkdir path
  if !(isDir newWorkdir) then
    (Except.error (setWorkDirMsg newWorkdir), ctx)
  else
    (Except.ok Outcome.success,
      { ctx with top := { ctx.top with workdir := some newWorkdir } })

/-! ## The WebSocket accept loop (src/http.rs, lines 177-186)

```rust
for stream in server.incoming() {
    let websocket = tungstenite::accept(stream?)?;
    sockets.lock().unwrap().push(websocket);
}
```
-/

/-- One inbound event of the accept loop: `server.incoming()` yielding an
erroneous stream (hitting `stream?`), a stream whose WebSocket handshake
fails (hitting `tungstenite::accept(..)?`), or a successfully upgraded
connection (identified by a number). -/
inductive WsEvent
  | streamErr (e : String)
  | handshakeFail (e : String)
  | conn (c : Nat)
deriving DecidableEq, Repr

/-- The accept loop of `serve_ws` over a finite schedule of inbound
events, threading the registry (`sockets`): a successful handshake pushes
the connection; either kind of failure is propagated by `?`, which ends
the loop and returns the error from `serve_ws`. -/
def serveWsLoop : List WsEvent → List Nat → Except String (List Nat)
  | [], sockets => Except.ok sockets
  | WsEvent.streamErr e :: _, _ => Except.error e
  | WsEvent.handshakeFail e :: _, _ => Except.error e
  | WsEvent.conn c :: rest, sockets => serveWsLoop rest (sockets ++ [c])

/-! ## The `Copy` operation (src/op/copy.rs) -/

/-- `Copy` (src/op/copy.rs, lines 8-13). -/
structure Copy where
  src : String
  dst : String
deriving DecidableEq, Repr

/-- The result of invoking `start` on an operation whose body may panic:
either a running handle, or a panic — `todo!()` unwinds, it neither
returns a handle nor an `Err`. -/
inductive StartResult (α : Type)
  | ok (handle : α)
  | panicked (msg : String)
deriving DecidableEq, Repr

/-- `Copy::start` (src/op/copy.rs, lines 28-31): `todo!()` panics
unconditionally for every context. The handle type is `Unit` because no
handle is ever produced. -/
def Copy.start (_c : Copy) (_ctx : Context) : StartResult Unit :=
  StartResult.panicked "not yet implemented"

theorem toList_append (s t : String) : (s ++ t).toList = s.toList ++ t.toList := rfl

theorem scanTo_zero (input : Buf) : scanTo input 0 = ⟨none, false⟩ := rfl

theorem scanTo_succ (input : Buf) (n : Nat) :
    scanTo input (n + 1) = injectStep input (scanTo input n) n := by
  unfold scanTo
  rw [List.range_succ, List.foldl_append, List.foldl_cons, List.foldl_nil]

example : (scanTo "<p></body>".toList 10).bodyCloseIdx = some 3 := by decide

example : (scanTo "<!--</body>-->".toList 14).bodyCloseIdx = none := by decide

example : (scanTo "</body></body>".toList 14).bodyCloseIdx = some 7 := by decide

/-- The recorded index only changes at an iteration whose index carries an
unguarded `</body>` match. -/
theorem injectStep_bodyCloseIdx (input : Buf) (st : ScanState) (i : Nat) :
    (injectStep input st i).bodyCloseIdx =
      if !st.insideComment && bodyCloseLit.isPrefixOf (input.drop i)
      then some i else st.bodyCloseIdx := by
  unfold injectStep
  by_cases h1 : (!st.insideComment && bodyCloseLit.isPrefixOf (input.drop i)) = true
  · simp [h1]
  · simp only [Bool.not_eq_true] at h1
    by_cases h2 : (!st.insideComment && commentOpenLit.isPrefixOf (input.drop i)) = true
    · simp [h1, h2]
    · simp only [Bool.not_eq_true] at h2
      by_cases h3 : (st.insideComment && commentCloseLit.isPrefixOf (input.drop i)) = true
      · simp [h1, h2, h3]
      · simp only [Bool.not_eq_true] at h3
        simp [h1, h2, h3]

theorem scan_invariant (input : Buf) : ∀ n, ScanInv input n := by
  intro n
  induction n with
  | zero =>
    simp only [ScanInv, scanTo_zero]
    intro j hj
    omega
  | succ n ih =>
    have hstep := injectStep_bodyCloseIdx input (scanTo input n) n
    have hcomment : (scanTo input n).insideComment = inCommentAt input n := rfl
    unfold ScanInv at ih ⊢
    rw [scanTo_succ, hstep]
    by_cases hc : (!(scanTo input n).insideComment
        && bodyCloseLit.isPrefixOf (input.drop n)) = true
    · -- iteration `n` records a fresh unguarded occurrence at `n`
      rw [if_pos hc]
      have hng : UnguardedAt input n := by
        rw [Bool.and_eq_true, Bool.not_eq_true'] at hc
        exact ⟨hcomment ▸ hc.1, hc.2⟩
      exact ⟨Nat.lt_succ_self n, hng, fun j hj hj' => by omega⟩
    · -- iteration `n` leaves the recorded index unchanged, and `n` itself
      -- carries no unguarded occurrence
      rw [if_neg hc]
      have hnone : ¬ UnguardedAt input n := by
        intro hng
        apply hc
        rw [Bool.and_eq_true, Bool.not_eq_true']
        exact ⟨hcomment ▸ hng.1, hng.2⟩
      cases hidx : (scanTo input n).bodyCloseIdx with
      | none =>
        rw [hidx] at ih
        intro j hj
        rcases Nat.lt_succ_iff_lt_or_eq.mp hj with h | h
        · exact ih j h
        · exact h ▸ hnone
      | some i =>
        rw [hidx] at ih
        refine ⟨Nat.lt_succ_of_lt ih.1, ih.2.1, ?_⟩
        intro j hij hj
        rcases Nat.lt_succ_iff_lt_or_eq.mp hj with h | h
        · exact ih.2.2 j hij h
        · exact h ▸ hnone

/-- No unguarded occurrence can sit at or beyond the end of the buffer:
`</body>` is non-empty, so it is no prefix of an empty tail. -/
theorem unguarded_lt_length (input : Buf) (i : Nat) (h : UnguardedAt input i) :
    i < input.length := by
  by_contra hge
  have hdrop : input.drop i = [] := List.drop_eq_nil_of_le (by omega)
  have := h.2
  rw [hdrop] at this
  simp [bodyCloseLit] at this

/-- C1, counterexample: in `</body></body>` both occurrences are unguarded.
The claim places the script immediately before the first one (index 0,
output `X</body></body>`), but `inject_into` keeps overwriting the recorded
index and inserts at index 7, before the last occurrence. -/
theorem inject_into_first_unguarded_cex :
    UnguardedAt "</body></body>".toList 0 ∧
    UnguardedAt "</body></body>".toList 7 ∧
    inject_into "</body></body>".toList "X".toList
      = "</body>".toList ++ "X".toList ++ "</body>".toList ∧
    inject_into "</body></body>".toList "X".toList
      ≠ "X".toList ++ "</body></body>".toList := by decide

/-- C1, amended: for every buffer holding at least one occurrence of
`</body>` that the single linear comment-tracking pass treats as unguarded,
`inject_into` inserts the script fragment immediately before the LAST such
unguarded occurrence (not the first), ignoring occurrences inside
`<!-- ... -->`. -/
theorem inject_into_at_last_unguarded (input script : Buf) (i : Nat)
    (h : UnguardedAt input i) :
    ∃ k, UnguardedAt input k ∧ (∀ j, k < j → ¬ UnguardedAt input j) ∧
      inject_into input script = input.take k ++ script ++ input.drop k := by
  have hinv := scan_invariant input input.length
  unfold ScanInv at hinv
  cases hidx : (scanTo input input.length).bodyCloseIdx with
  | none =>
    rw [hidx] at hinv
    exact absurd h (hinv i (unguarded_lt_length input i h))
  | some k =>
    rw [hidx] at hinv
    refine ⟨k, hinv.2.1, ?_, ?_⟩
    · intro j hkj hng
      exact hinv.2.2 j hkj (unguarded_lt_length input j hng) hng
    · simp [inject_into, hidx]

/-- C1, witness for the amended theorem at the buffer `<p></body>`. -/
theorem inject_into_at_last_unguarded_witness :
    ∃ k, UnguardedAt "<p></body>".toList k ∧
      (∀ j, k < j → ¬ UnguardedAt "<p></body>".toList j) ∧
      inject_into "<p></body>".toList "S".toList
        = "<p></body>".toList.take k ++ "S".toList ++ "<p></body>".toList.drop k :=
  inject_into_at_last_unguarded "<p></body>".toList "S".toList 3 (by decide)

/-- C2: for every buffer in which the scan finds no unguarded `</body>`
occurrence, `inject_into` appends the script at the very end, and the
output length is the input length plus the script length. -/
theorem inject_into_appends_without_unguarded (input script : Buf)
    (h : ∀ i, i < input.length → ¬ UnguardedAt input i) :
    inject_into input script = input ++ script ∧
    (inject_into input script).length = input.length + script.length := by
  have hinv := scan_invariant input input.length
  unfold ScanInv at hinv
  cases hidx : (scanTo input input.length).bodyCloseIdx with
  | some k =>
    rw [hidx] at hinv
    exact absurd hinv.2.1 (h k hinv.1)
  | none =>
    constructor
    · simp [inject_into, hidx]
    · simp [inject_into, hidx]

/-- C2, witness at the buffer `<p>x</p>` (contains no `</body>` at all). -/
theorem inject_into_appends_without_unguarded_witness :
    inject_into "<p>x</p>".toList "S".toList = "<p>x</p>".toList ++ "S".toList ∧
    (inject_into "<p>x</p>".toList "S".toList).length
      = "<p>x</p>".toList.length + "S".toList.length :=
  inject_into_appends_without_unguarded "<p>x</p>".toList "S".toList (by decide)

/-- C3: `Task::run` executes the operations in declaration order and stops
at the first operation whose outcome is Failure, returning Failure for the
whole task with exactly the operations up to and including the failing one
executed; if every operation succeeds, the task returns Success having
executed all of them. In particular `[Success, Failure, Success]` executes
two operations, reports Failure, and never runs the third. -/
theorem task_run_fail_fast (os : List Outcome) :
    taskRun (os.map Except.ok) =
      (if Outcome.failure ∈ os
       then (Except.ok Outcome.failure, os.findIdx (fun o => o == Outcome.failure) + 1)
       else (Except.ok Outcome.success, os.length)) ∧
    taskRun [Except.ok Outcome.success, Except.ok Outcome.failure, Except.ok Outcome.success]
      = (Except.ok Outcome.failure, 2) := by
  refine ⟨?_, rfl⟩
  induction os with
  | nil => simp [taskRun]
  | cons o rest ih =>
    cases o with
    | failure =>
      simp [taskRun, Outcome.is_failure, List.findIdx_cons]
    | success =>
      rw [List.map_cons, taskRun, if_neg (by simp [Outcome.is_failure]), ih]
      by_cases hf : Outcome.failure ∈ rest
      · simp [hf, List.findIdx_cons, show (Outcome.success == Outcome.failure) = false from rfl]
      · simp [hf, List.findIdx_cons]

/-- C4: a spawn failure is propagated as a hard error (never a running
handle, hence never an `Outcome::Failure`), while a process that ran and
exited with a non-zero status yields `Outcome.failure` together with the
logged warning — not an error — and exit status 0 yields `Outcome.success`
with no warning; when the OS error kind is `NotFound`, the error message
ends with the hint that the program is likely not installed. -/
theorem command_spawn_error_vs_exit_failure (run : ProgramAndArgs) (e : SpawnError)
    (code : Nat) (hkind : e.kind = IOErrorKind.notFound) (hcode : code ≠ 0) :
    commandStart run (Except.error e) = Except.error (spawnContext run e, e) ∧
    (∀ h : RunningCommand, commandStart run (Except.error e) ≠ Except.ok h) ∧
    (notInstalledHint run).toList <:+ (spawnContext run e).toList ∧
    finishWithStatus code = (Outcome.failure, true) ∧
    finishWithStatus 0 = (Outcome.success, false) := by
  refine ⟨rfl, ?_, ?_, ?_, rfl⟩
  · intro h hc
    cases hc
  · unfold spawnContext
    rw [if_pos hkind]
    exact List.suffix_append _ _
  · unfold finishWithStatus
    rw [if_neg hcode]

/-- C4, witness: a `NotFound` spawn failure for `frobnicate`, and exit
status 1. -/
theorem command_spawn_error_vs_exit_failure_witness :
    commandStart ⟨"frobnicate", []⟩ (Except.error ⟨IOErrorKind.notFound, "No such file"⟩)
      = Except.error
          (spawnContext ⟨"frobnicate", []⟩ ⟨IOErrorKind.notFound, "No such file"⟩,
           ⟨IOErrorKind.notFound, "No such file"⟩) ∧
    (∀ h : RunningCommand,
      commandStart ⟨"frobnicate", []⟩ (Except.error ⟨IOErrorKind.notFound, "No such file"⟩)
        ≠ Except.ok h) ∧
    (notInstalledHint ⟨"frobnicate", []⟩).toList
      <:+ (spawnContext ⟨"frobnicate", []⟩ ⟨IOErrorKind.notFound, "No such file"⟩).toList ∧
    finishWithStatus 1 = (Outcome.failure, true) ∧
    finishWithStatus 0 = (Outcome.success, false) :=
  command_spawn_error_vs_exit_failure ⟨"frobnicate", []⟩
    ⟨IOErrorKind.notFound, "No such file"⟩ 1 rfl (by decide)

/-- C5: `"echo hello world"` parses to program `echo` with arguments
`[hello, world]`; `["git","commit","-m","msg"]` parses to program `git`
with arguments `[commit, -m, msg]`; the empty string, the empty list, any
all-whitespace string, and any explicit list holding an empty or
all-whitespace fragment fail with an error. -/
theorem program_spec_parsing :
    programAndArgsTryFrom (RawProgramAndArgs.simple "echo hello world")
      = Except.ok ⟨"echo", ["hello", "world"]⟩ ∧
    programAndArgsTryFrom (RawProgramAndArgs.explicit ["git", "commit", "-m", "msg"])
      = Except.ok ⟨"git", ["commit", "-m", "msg"]⟩ ∧
    programAndArgsTryFrom (RawProgramAndArgs.simple "")
      = Except.error "command string is empty" ∧
    programAndArgsTryFrom (RawProgramAndArgs.explicit [])
      = Except.error "empty list as command specification" ∧
    (∀ s : String, s.toList.all Char.isWhitespace = true →
      programAndArgsTryFrom (RawProgramAndArgs.simple s)
        = Except.error "command string is empty") ∧
    (∀ v : List String, ∀ f ∈ v, (f.isEmpty || f.toList.all Char.isWhitespace) = true →
      ∃ m, programAndArgsTryFrom (RawProgramAndArgs.explicit v) = Except.error m) := by
  refine ⟨rfl, rfl, rfl, rfl, ?_, ?_⟩
  · intro s hs
    have hcond : (s.isEmpty || s.toList.all Char.isWhitespace) = true := by
      rw [hs, Bool.or_true]
    simp only [programAndArgsTryFrom]
    rw [if_pos hcond]
  · intro v f hf hbad
    by_cases hv : v.isEmpty = true
    · refine ⟨"empty list as command specification", ?_⟩
      simp only [programAndArgsTryFrom]
      rw [if_pos hv]
    · have hany : v.any (fun f => f.isEmpty || f.toList.all Char.isWhitespace) = true :=
        List.any_eq_true.mpr ⟨f, hf, hbad⟩
      refine ⟨"empty fragment in command specification", ?_⟩
      simp only [programAndArgsTryFrom]
      rw [if_neg hv, if_pos hany]

/-- C5, witness: an all-whitespace command string and an explicit list with
an all-whitespace fragment both fail. -/
theorem program_spec_parsing_witness :
    programAndArgsTryFrom (RawProgramAndArgs.simple "   ")
      = Except.error "command string is empty" ∧
    ∃ m, programAndArgsTryFrom (RawProgramAndArgs.explicit ["git", "  "])
      = Except.error m :=
  ⟨program_spec_parsing.2.2.2.2.1 "   " (by decide),
   program_spec_parsing.2.2.2.2.2 ["git", "  "] "  " (by decide) (by decide)⟩

/-- C6: for every forwarded request the proxy returns the backend's
response unmodified unless live-reload is enabled and the response's
Content-Type value begins with `text/html`; in that case only the body
(through the injector) and the Content-Length header (set to the new byte
length, when the header is present) change, while the status, the content
type and all other headers are unchanged; and the rebuilt target URI
preserves the request's path and query. -/
theorem proxy_forward_contract (target : String) (autoReload : Bool) (script : Buf)
    (req : HttpRequest) (backend : BuiltUri → Except String HttpResponse)
    (r : HttpResponse) (hok : backend (rebuildUri target req) = Except.ok r) :
    (∀ pq, req.pathAndQuery = some pq → (rebuildUri target req).pathAndQuery = pq) ∧
    (autoReload = false → proxy target autoReload script req backend = r) ∧
    (isHtmlResponse r = false → proxy target autoReload script req backend = r) ∧
    (autoReload = true → isHtmlResponse r = true →
      (proxy target autoReload script req backend).body = inject_into r.body script ∧
      (proxy target autoReload script req backend).parts.status = r.parts.status ∧
      (proxy target autoReload script req backend).parts.contentType
        = r.parts.contentType ∧
      (proxy target autoReload script req backend).parts.otherHeaders
        = r.parts.otherHeaders ∧
      (proxy target autoReload script req backend).parts.contentLength
        = r.parts.contentLength.map (fun _ => (inject_into r.body script).length)) := by
  refine ⟨?_, ?_, ?_, ?_⟩
  · intro pq hpq
    simp [rebuildUri, hpq]
  · intro ha
    simp [proxy, hok, ha]
  · intro hh
    by_cases ha : autoReload = true
    · simp [proxy, hok, ha, hh]
    · simp only [Bool.not_eq_true] at ha
      simp [proxy, hok, ha]
  · intro ha hh
    simp [proxy, hok, ha, hh, injectResponse]

/-- C6, witness: an HTML response behind an enabled live-reload proxy, and
a request with path and query `/idx?q=1`. -/
theorem proxy_forward_contract_witness :
    ((rebuildUri "127.0.0.1:8080" ⟨some "/idx?q=1"⟩).pathAndQuery = "/idx?q=1") ∧
    (proxy "127.0.0.1:8080" true "S".toList ⟨some "/idx?q=1"⟩
        (fun _ => Except.ok ⟨⟨200, some "text/html; charset=utf-8".toList, some 3,
          [("x-a", "b")]⟩, "<p>".toList⟩)).body
      = inject_into "<p>".toList "S".toList ∧
    (proxy "127.0.0.1:8080" true "S".toList ⟨some "/idx?q=1"⟩
        (fun _ => Except.ok ⟨⟨200, some "text/html; charset=utf-8".toList, some 3,
          [("x-a", "b")]⟩, "<p>".toList⟩)).parts.status = 200 :=
  have h := proxy_forward_contract "127.0.0.1:8080" true "S".toList ⟨some "/idx?q=1"⟩
    (fun _ => Except.ok ⟨⟨200, some "text/html; charset=utf-8".toList, some 3,
      [("x-a", "b")]⟩, "<p>".toList⟩)
    ⟨⟨200, some "text/html; charset=utf-8".toList, some 3, [("x-a", "b")]⟩, "<p>".toList⟩
    rfl
  ⟨h.1 "/idx?q=1" rfl, (h.2.2.2 rfl (by decide)).1, (h.2.2.2 rfl (by decide)).2.1⟩

/-- C8: when the backend call fails, the proxy replies — rather than
propagating the error, `proxy` is a total function into responses — with
status 502, Content-Type `text/plain`, and a plain-text body that
describes the failure: it contains both the attempted target URI and the
upstream error text. -/
theorem proxy_bad_gateway (target : String) (autoReload : Bool) (script : Buf)
    (req : HttpRequest) (backend : BuiltUri → Except String HttpResponse)
    (e : String) (herr : backend (rebuildUri target req) = Except.error e) :
    proxy target autoReload script req backend
      = badGatewayResponse (rebuildUri target req) e ∧
    (proxy target autoReload script req backend).parts.status = 502 ∧
    (proxy target autoReload script req backend).parts.contentType
      = some "text/plain".toList ∧
    (uriToString (rebuildUri target req)).toList
      <:+: (proxy target autoReload script req backend).body ∧
    e.toList <:+: (proxy target autoReload script req backend).body := by
  have hresp : proxy target autoReload script req backend
      = badGatewayResponse (rebuildUri target req) e := by
    simp [proxy, herr]
  have hbody : (badGatewayResponse (rebuildUri target req) e).body
      = "failed to reach ".toList ++ ((uriToString (rebuildUri target req)).toList
        ++ ("\nError:\n\n".toList ++ e.toList)) := by
    simp [badGatewayResponse, toList_append, List.append_assoc]
  refine ⟨hresp, by rw [hresp]; rfl, by rw [hresp]; rfl, ?_, ?_⟩
  · rw [hresp, hbody]
    exact ⟨"failed to reach ".toList, "\nError:\n\n".toList ++ e.toList,
      by simp [List.append_assoc]⟩
  · rw [hresp, hbody]
    refine ⟨"failed to reach ".toList ++ ((uriToString (rebuildUri target req)).toList
      ++ "\nError:\n\n".toList), [], ?_⟩
    simp [List.append_assoc]

/-- C8, witness: a refused upstream connection for `/x` behind target
`127.0.0.1:9`. -/
theorem proxy_bad_gateway_witness :
    proxy "127.0.0.1:9" false "S".toList ⟨some "/x"⟩
        (fun _ => Except.error "connection refused")
      = badGatewayResponse (rebuildUri "127.0.0.1:9" ⟨some "/x"⟩) "connection refused" ∧
    (proxy "127.0.0.1:9" false "S".toList ⟨some "/x"⟩
        (fun _ => Except.error "connection refused")).parts.status = 502 ∧
    (uriToString (rebuildUri "127.0.0.1:9" ⟨some "/x"⟩)).toList
      <:+: (proxy "127.0.0.1:9" false "S".toList ⟨some "/x"⟩
        (fun _ => Except.error "connection refused")).body :=
  have h := proxy_bad_gateway "127.0.0.1:9" false "S".toList ⟨some "/x"⟩
    (fun _ => Except.error "connection refused") "connection refused" rfl
  ⟨h.1, h.2.1, h.2.2.2.1⟩

/-- C7: `SetWorkDir::run` resolves its configured path relative to the
Context's current working directory; if the filesystem says the resolved
path is not a directory it fails with an error and the Context is left
unchanged; otherwise it writes the resolved value into the current (top)
Context frame — making it the current working directory — and returns
Success. -/
theorem set_workdir_run_contract (path : Path) ( isDir : Path → Bool) (ctx : Context) :
    (isDir (ctx.currentWorkdir ++ path) = false →
      setWorkDirRun path isDir ctx
        = (Except.error (setWorkDirMsg (ctx.currentWorkdir ++ path)), ctx)) ∧
    (isDir (ctx.currentWorkdir ++ path) = true →
      setWorkDirRun path isDir ctx
        = (Except.ok Outcome.success,
            { ctx with top := { ctx.top with workdir := some (ctx.currentWorkdir ++ path) } }) ∧
      (setWorkDirRun path isDir ctx).2.currentWorkdir = ctx.currentWorkdir ++ path) := by
  constructor
  · intro h
    simp [setWorkDirRun, Context.joinWorkdir, h]
  · intro h
    have heq : setWorkDirRun path isDir ctx
        = (Except.ok Outcome.success,
            { ctx with
              top := { ctx.top with workdir := some (ctx.currentWorkdir ++ path) } }) := by
      simp [setWorkDirRun, Context.joinWorkdir, h]
    refine ⟨heq, ?_⟩
    rw [heq]
    rfl

/-- C7, witness: joining `sub` onto a context whose base is `root`, once
with a filesystem that accepts the directory and once with one that
rejects it. -/
theorem set_workdir_run_contract_witness :
    setWorkDirRun ["sub"] (fun _ => true) ⟨["root"], ⟨none⟩, []⟩
      = (Except.ok Outcome.success, ⟨["root"], ⟨some ["root", "sub"]⟩, []⟩) ∧
    setWorkDirRun ["sub"] (fun _ => false) ⟨["root"], ⟨none⟩, []⟩
      = (Except.error (setWorkDirMsg ["root", "sub"]), ⟨["root"], ⟨none⟩, []⟩) :=
  ⟨((set_workdir_run_contract ["sub"] (fun _ => true) ⟨["root"], ⟨none⟩, []⟩).2 rfl).1,
   (set_workdir_run_contract ["sub"] (fun _ => false) ⟨["root"], ⟨none⟩, []⟩).1 rfl⟩

/-- C9, counterexample: a failing WebSocket handshake is not logged,
dropped and skipped — it terminates the accept loop with the error, so the
connection arriving right after is never registered (the claim would
expect the loop to continue and the registry to end up holding it). -/
theorem ws_handshake_failure_cex :
    serveWsLoop [WsEvent.handshakeFail "bad handshake", WsEvent.conn 7] []
      = Except.error "bad handshake" ∧
    serveWsLoop [WsEvent.handshakeFail "bad handshake", WsEvent.conn 7] []
      ≠ Except.ok [7] := by
  refine ⟨rfl, ?_⟩
  intro h
  simp [serveWsLoop] at h

/-- C9, amended: every successfully handshaken connection is appended to
the registry in arrival order; but a handshake failure (like a stream
error) is propagated by `?` and terminates the accept loop with that
error — the failing connection and every later event are dropped without
being registered, and `serve_ws` returns the error. -/
theorem serve_ws_loop_amended (cs : List Nat) (sockets : List Nat)
    (e : String) (evs : List WsEvent) :
    serveWsLoop (cs.map WsEvent.conn) sockets = Except.ok (sockets ++ cs) ∧
    serveWsLoop (cs.map WsEvent.conn ++ WsEvent.handshakeFail e :: evs) sockets
      = Except.error e := by
  induction cs generalizing sockets with
  | nil => simp [serveWsLoop]
  | cons c cs ih =>
    constructor
    · rw [List.map_cons]
      show serveWsLoop (cs.map WsEvent.conn) (sockets ++ [c]) = _
      rw [(ih (sockets ++ [c])).1]
      simp
    · rw [List.map_cons, List.cons_append]
      show serveWsLoop (cs.map WsEvent.conn ++ WsEvent.handshakeFail e :: evs)
        (sockets ++ [c]) = _
      exact (ih (sockets ++ [c])).2

/-- C10: for every context, `Copy::start` never produces a
running-operation handle: it is an unimplemented stub (`todo!()`) that
panics unconditionally, so no Copy operation can be executed
successfully. -/
theorem copy_start_never_returns_handle (c : Copy) (ctx : Context) :
    Copy.start c ctx = StartResult.panicked "not yet implemented" ∧
    ∀ h : Unit, Copy.start c ctx ≠ StartResult.ok h :=
  ⟨rfl, fun _ hc => StartResult.noConfusion hc⟩

/-- C10, witness at a concrete Copy operation and context. -/
theorem copy_start_never_returns_handle_witness :
    Copy.start ⟨"a", "b"⟩ ⟨["root"], ⟨none⟩, []⟩
      = StartResult.panicked "not yet implemented" ∧
    Copy.start ⟨"a", "b"⟩ ⟨["root"], ⟨none⟩, []⟩ ≠ StartResult.ok () :=
  ⟨(copy_start_never_returns_handle ⟨"a", "b"⟩ ⟨["root"], ⟨none⟩, []⟩).1,
   (copy_start_never_returns_handle ⟨"a", "b"⟩ ⟨["root"], ⟨none⟩, []⟩).2 ()⟩

end Watchboi
